import Mathlib

/-
Verification of the blockchain core of `andrewyang17/blockchain`:

* `foundation/blockchain/database/transaction.go` — the transaction model
  (`Tx`, `SignedTx`, `NewTx`, `Tx.Sign`, `SignedTx.Validate`);
* `foundation/blockchain/mempool/selector/selector.go` — the selection
  framework (`Retrieve`, the `strategies` registry, `byTip`);
* `foundation/blockchain/storage/disk/disk.go` — the block store
  (`Disk.Write`, `Disk.GetBlock`, `Disk.ForEach`, `diskIterator`).

The Go file system is modelled as a map from block numbers to optional byte
contents (a record per block number, matching `getPath`, which names the
record injectively by the decimal block number).  Machine integers
(`uint16`, `uint64`) only ever undergo equality tests, increments-from-zero
and comparisons in the verified code, so they are modelled as `Nat`.
-/

-- ===========================================================================
-- Bytes
-- ===========================================================================

/-- A file's content: a list of bytes. -/
abbrev Bytes := List Nat

-- ===========================================================================
-- Data model of persisted blocks.
-- ===========================================================================

/-- Modelled from the spec: `BlockTx` is "a SignedTx enriched with
block-production metadata (at minimum the transaction's tip and nonce are
used for ordering; additional fields ... are implementation-defined
extensions)".  Its defining file of the `database` package is not among the
sources; only the two fields the spec requires and the verified code reads
(`Nonce`, `Tip`) are modelled. -/
structure BlockTx where
  Nonce : Nat
  Tip : Nat
deriving DecidableEq, Repr, Inhabited

/-- Modelled from the spec: a block header carries "at minimum a
monotonically increasing `number` starting at 1"; the `database` package
defining it is not among the sources.  `disk.go` reads only
`blockData.Header.Number`. -/
structure BlockHeader where
  Number : Nat
deriving DecidableEq, Repr

/-- Modelled from the spec: `BlockData`, "the unit of persistence: a header
... plus an ordered sequence of BlockTx"; the `database` package defining it
is not among the sources. -/
structure BlockData where
  Header : BlockHeader
  Trans : List BlockTx
deriving DecidableEq, Repr

-- ===========================================================================
-- Canonical serialization of BlockData.
--
-- Modelled from the spec: `Write` "serializes the block to a canonical,
-- human-inspectable encoding" (the Go code delegates to
-- `json.MarshalIndent` / `json.NewDecoder(...).Decode`, external stdlib
-- collaborators; the concrete grammar of the encoding is not part of the
-- sources).  The model uses decimal numerals and one-byte delimiters, and —
-- like Go's `json.Decoder.Decode` — the decoder reads the first complete
-- value and ignores any trailing bytes.
-- ===========================================================================

/-- Is the byte an ASCII decimal digit? -/
def isDigitByte (b : Nat) : Bool := decide (48 ≤ b ∧ b ≤ 57)

/-- Little-endian base-10 digits of `n`, with explicit fuel (`fuel ≥ n`
suffices). -/
def digitsRev : Nat → Nat → List Nat
  | 0, _ => []
  | fuel + 1, n => if n = 0 then [] else n % 10 :: digitsRev fuel (n / 10)

/-- Value of a little-endian digit list. -/
def digitsVal : List Nat → Nat
  | [] => 0
  | d :: ds => d + 10 * digitsVal ds

/-- ASCII decimal numeral of `n` (most significant digit first). -/
def encNat (n : Nat) : Bytes :=
  if n = 0 then [48] else ((digitsRev n n).map (fun d => 48 + d)).reverse

/-- Encoding of one transaction: `[nonce,tip]`. -/
def encTx (t : BlockTx) : Bytes :=
  91 :: (encNat t.Nonce ++ 44 :: (encNat t.Tip ++ [93]))

/-- Concatenated encodings of a transaction list. -/
def encTxs : List BlockTx → Bytes
  | [] => []
  | t :: ts => encTx t ++ encTxs ts

/-- Encoding of a block: `{number:count:txs}` where `count` is the number of
transactions. -/
def encBlockData (b : BlockData) : Bytes :=
  123 :: (encNat b.Header.Number ++
    58 :: (encNat b.Trans.length ++ 58 :: (encTxs b.Trans ++ [125])))

/-- True when the stream does not begin with a digit (a numeral ends here). -/
def noDigitHead (s : Bytes) : Bool :=
  match s with
  | [] => true
  | b :: _ => !isDigitByte b

/-- Read a decimal numeral from the head of the stream. -/
def parseNat (s : Bytes) : Option (Nat × Bytes) :=
  let ds := s.takeWhile isDigitByte
  if ds.isEmpty then none
  else some (digitsVal ((ds.map (fun b => b - 48)).reverse), s.dropWhile isDigitByte)

/-- Read one transaction from the head of the stream. -/
def parseTx (s : Bytes) : Option (BlockTx × Bytes) :=
  match s with
  | [] => none
  | b :: r0 =>
      if b = 91 then
        match parseNat r0 with
        | some (nonce, c :: r1) =>
            if c = 44 then
              match parseNat r1 with
              | some (tip, d :: r2) =>
                  if d = 93 then some ({ Nonce := nonce, Tip := tip }, r2) else none
              | _ => none
            else none
        | _ => none
      else none

/-- Read exactly `k` transactions from the head of the stream. -/
def parseTxsN : Nat → Bytes → Option (List BlockTx × Bytes)
  | 0, s => some ([], s)
  | k + 1, s =>
      match parseTx s with
      | some (t, r) =>
          match parseTxsN k r with
          | some (ts, r2) => some (t :: ts, r2)
          | none => none
      | none => none

/-- Read one block from the head of the stream, returning the remaining
(ignored) trailing bytes — as `json.Decoder.Decode` does. -/
def parseBlockData (s : Bytes) : Option (BlockData × Bytes) :=
  match s with
  | [] => none
  | b :: r0 =>
      if b = 123 then
        match parseNat r0 with
        | some (num, c :: r1) =>
            if c = 58 then
              match parseNat r1 with
              | some (cnt, d :: r2) =>
                  if d = 58 then
                    match parseTxsN cnt r2 with
                    | some (ts, e :: r3) =>
                        if e = 125 then
                          some ({ Header := { Number := num }, Trans := ts }, r3)
                        else none
                    | _ => none
                  else none
              | _ => none
            else none
        | _ => none
      else none

/-- The concrete serializer used by `Disk.Write`: models
`json.MarshalIndent(blockData, "", "  ")`, which cannot fail on
`BlockData`'s field types (hence always `Except.ok`); the `error` channel of
the Go call is kept in the type. -/
def marshalBlockData (b : BlockData) : Except String Bytes :=
  Except.ok (encBlockData b)

-- ===========================================================================
-- Block store (disk.go).
-- ===========================================================================

/-- The directory of block records: content of the record named by each
block number (`getPath` maps a number injectively to a file name), `none`
when the file does not exist. -/
abbrev Store := Nat → Option Bytes

/-- Replace the content of one record. -/
def storeWrite (st : Store) (n : Nat) (bs : Bytes) : Store :=
  fun m => if m = n then some bs else st m

/-- Error outcomes of the store, from `disk.go`: `notFound` is
`fs.ErrNotExist` (the record file is absent), `deserializationFailure` a
decode error, `ioFailure` any other file-system error, `endOfChain` the
iterator's `errors.New("end of chain")`. -/
inductive DiskErr where
  | notFound
  | deserializationFailure
  | ioFailure
  | endOfChain
deriving DecidableEq, Repr

instance exceptDecEq {ε α : Type} [DecidableEq ε] [DecidableEq α] : DecidableEq (Except ε α)
  | Except.error e, Except.error f =>
      if h : e = f then isTrue (by rw [h]) else isFalse fun hh => h (Except.noConfusion hh id)
  | Except.error _, Except.ok _ => isFalse fun hh => Except.noConfusion hh
  | Except.ok _, Except.error _ => isFalse fun hh => Except.noConfusion hh
  | Except.ok a, Except.ok b =>
      if h : a = b then isTrue (by rw [h]) else isFalse fun hh => h (Except.noConfusion hh id)

/-- `Disk.Write` from `disk.go`, parameterized by the external serializer
`m` (the Go code calls `json.MarshalIndent`):

* if serialization fails the Go code executes `return nil` — success with
  nothing written (modelled faithfully, bug included);
* otherwise the record is opened with `os.O_CREATE|os.O_RDWR` — created if
  absent but NOT truncated — and `data` is written at offset 0, so any bytes
  of a longer previous record beyond `data.length` survive. -/
def Disk.Write (m : BlockData → Except String Bytes) (st : Store) (blockData : BlockData) :
    Except DiskErr Store :=
  match m blockData with
  | Except.error _ => Except.ok st
  | Except.ok data =>
      let old := (st blockData.Header.Number).getD []
      Except.ok (storeWrite st blockData.Header.Number (data ++ old.drop data.length))

/-- `Disk.GetBlock` from `disk.go`: open the record for `num`
(`fs.ErrNotExist` when absent), decode the first value from it. -/
def Disk.GetBlock (st : Store) (num : Nat) : Except DiskErr BlockData :=
  match st num with
  | none => Except.error DiskErr.notFound
  | some content =>
      match parseBlockData content with
      | none => Except.error DiskErr.deserializationFailure
      | some (blockData, _) => Except.ok blockData

/-- `diskIterator` from `disk.go` (its `storage *Disk` field is the record
map). -/
structure diskIterator where
  storage : Store
  currentBlockNumber : Nat
  endOfChain : Bool

/-- `Disk.ForEach` from `disk.go`: a fresh iterator (zero-valued
`currentBlockNumber` and `endOfChain`). -/
def Disk.ForEach (st : Store) : diskIterator :=
  { storage := st, currentBlockNumber := 0, endOfChain := false }

/-- `diskIterator.Next` from `disk.go`: result of the call plus the
iterator's new state. -/
def diskIterator.Next (di : diskIterator) : Except DiskErr BlockData × diskIterator :=
  if di.endOfChain then (Except.error DiskErr.endOfChain, di)
  else
    let n := di.currentBlockNumber + 1
    match Disk.GetBlock di.storage n with
    | Except.error DiskErr.notFound =>
        (Except.error DiskErr.notFound,
         { di with currentBlockNumber := n, endOfChain := true })
    | r => (r, { di with currentBlockNumber := n })

/-- `diskIterator.Done` from `disk.go`. -/
def diskIterator.Done (di : diskIterator) : Bool := di.endOfChain

/-- Run `k` successive `Next` calls, collecting the `k` results and the
final iterator state. -/
def runNext : diskIterator → Nat → List (Except DiskErr BlockData) × diskIterator
  | it, 0 => ([], it)
  | it, k + 1 =>
      let step := it.Next
      let rest := runNext step.2 k
      (step.1 :: rest.1, rest.2)

-- ===========================================================================
-- Transaction model (transaction.go).
-- ===========================================================================

/-- Modelled from the spec: `AccountID` is "an opaque, externally-validated
string identifier for a participant"; its defining file of the `database`
package is not among the sources. -/
abbrev AccountID := String

/-- `Tx` from `transaction.go`. -/
structure Tx where
  ChainID : Nat
  Nonce : Nat
  FromID : AccountID
  ToID : AccountID
  Value : Nat
  Tip : Nat
  Data : Bytes
deriving DecidableEq, Repr

/-- `SignedTx` from `transaction.go`: the embedded `Tx` plus the signature
triple (`*big.Int` coordinates, modelled as `Int`). -/
structure SignedTx where
  Tx : Tx
  V : Int
  R : Int
  S : Int
deriving DecidableEq, Repr

/-- Modelled from the spec: the external Signing Service and the AccountID
well-formedness predicate (§6 — "consumed external interfaces"); the
`signature` package and `AccountID.IsAccountID` are not among the sources.
Per §6, `verify_signature(v, r, s) -> ok/error` is a structural check and
`recover_address(tx, v, r, s) -> AccountID` is total. -/
structure SigService where
  isAccountID : AccountID → Bool
  sign : Tx → Except String (Int × Int × Int)
  verifySignature : Int → Int → Int → Bool
  fromAddress : Tx → Int → Int → Int → AccountID

/-- Construction failures of `NewTx` (the two `errors.New` sites). -/
inductive NewTxErr where
  | invalidFromAccount
  | invalidToAccount
deriving DecidableEq, Repr

/-- Validation failures of `SignedTx.Validate`, one per `return` site. -/
inductive ValidateErr where
  | chainMismatch
  | invalidFromAccount
  | invalidToAccount
  | selfPayment
  | badSignature
  | signerMismatch
deriving DecidableEq, Repr

/-- `NewTx` from `transaction.go`. -/
def NewTx (svc : SigService) (chainID nonce : Nat) (fromID toID : AccountID)
    (value tip : Nat) (data : Bytes) : Except NewTxErr Tx :=
  if svc.isAccountID fromID = false then Except.error NewTxErr.invalidFromAccount
  else if svc.isAccountID toID = false then Except.error NewTxErr.invalidToAccount
  else Except.ok
    { ChainID := chainID, Nonce := nonce, FromID := fromID, ToID := toID,
      Value := value, Tip := tip, Data := data }

/-- `Tx.Sign` from `transaction.go`: delegate to the Signing Service and
wrap the returned triple with the original `Tx`. -/
def Tx.Sign (svc : SigService) (tx : Tx) : Except String SignedTx :=
  match svc.sign tx with
  | Except.error e => Except.error e
  | Except.ok (v, r, s) => Except.ok { Tx := tx, V := v, R := r, S := s }

/-- `SignedTx.Validate` from `transaction.go`: the six checks in source
order, each short-circuiting. -/
def SignedTx.Validate (svc : SigService) (stx : SignedTx) (chainID : Nat) :
    Except ValidateErr Unit :=
  if stx.Tx.ChainID ≠ chainID then Except.error ValidateErr.chainMismatch
  else if svc.isAccountID stx.Tx.FromID = false then Except.error ValidateErr.invalidFromAccount
  else if svc.isAccountID stx.Tx.ToID = false then Except.error ValidateErr.invalidToAccount
  else if stx.Tx.FromID = stx.Tx.ToID then Except.error ValidateErr.selfPayment
  else if svc.verifySignature stx.V stx.R stx.S = false then Except.error ValidateErr.badSignature
  else if svc.fromAddress stx.Tx stx.V stx.R stx.S ≠ stx.Tx.FromID then
    Except.error ValidateErr.signerMismatch
  else Except.ok ()

-- ===========================================================================
-- Selection framework (selector.go).
-- ===========================================================================

/-- `StrategyTip` from `selector.go`. -/
def StrategyTip : String := "tip"

/-- `StrategyTipAdvanced` from `selector.go` (declared, never registered). -/
def StrategyTipAdvanced : String := "tip_advanced"

/-- `Func` from `selector.go`: the Go `map[database.AccountID][]database.BlockTx`
argument is modelled as an association list. -/
abbrev Func := List (AccountID × List BlockTx) → Nat → List BlockTx

/-- ASCII lowercasing of one character (as `strings.ToLower` acts on the
ASCII strategy names involved). -/
def lowerChar (c : Char) : Char :=
  if 65 ≤ c.toNat ∧ c.toNat ≤ 90 then Char.ofNat (c.toNat + 32) else c

/-- `strings.ToLower` on ASCII strings. -/
def asciiToLower (s : String) : String := String.mk (s.data.map lowerChar)

/-- Stable insertion before the first strictly smaller tip (keeps equal-tip
elements in input order). -/
def insertByTipDesc (t : BlockTx) : List BlockTx → List BlockTx
  | [] => [t]
  | u :: us => if u.Tip < t.Tip then t :: u :: us else u :: insertByTipDesc t us

/-- Stable sort by descending tip. -/
def sortByTipDesc : List BlockTx → List BlockTx
  | [] => []
  | t :: ts => insertByTipDesc t (sortByTipDesc ts)

/-- Modelled from the spec: the `tip` strategy (its defining file of the
`selector` package is not among the sources): "flatten the per-sender
lists ..., stably sort the flattened list by descending tip ..., then
truncate to `howMany`". -/
def tipSelect (transactions : List (AccountID × List BlockTx)) (howMany : Nat) : List BlockTx :=
  (sortByTipDesc (transactions.map Prod.snd).flatten).take howMany

/-- `strategies` from `selector.go`: the registry holds exactly the one
entry `StrategyTip ↦ tipSelect`. -/
def strategies : List (String × Func) := [(StrategyTip, tipSelect)]

/-- The error of `Retrieve`: `fmt.Errorf("strategy %q does not exist",
strategy)`, carrying the requested name. -/
inductive SelectorErr where
  | unknownStrategy (name : String)
deriving DecidableEq, Repr

/-- Go map lookup over the registry. -/
def lookupStrategy : List (String × Func) → String → Option Func
  | [], _ => none
  | (k, v) :: rest, key => if k = key then some v else lookupStrategy rest key

/-- `Retrieve` from `selector.go`: look the lowercased name up in the
registry. -/
def Retrieve (strategy : String) : Except SelectorErr Func :=
  match lookupStrategy strategies (asciiToLower strategy) with
  | some fn => Except.ok fn
  | none => Except.error (SelectorErr.unknownStrategy strategy)

/-- `byTip.Len` from `selector.go`. -/
def byTip.Len (b : List BlockTx) : Nat := b.length

/-- `byTip.Less` from `selector.go`: descending tip order. -/
def byTip.Less (b : List BlockTx) (i j : Nat) : Bool :=
  (b.getD j default).Tip < (b.getD i default).Tip

/-- `byTip.Swap` from `selector.go`: the body is `panic("implement me")`, so
every invocation fails — modelled as `none` on all inputs (a normal swap
would return `some` of the updated list, as `byNonce.Swap` does). -/
def byTip.Swap (_b : List BlockTx) (_i _j : Nat) : Option (List BlockTx) := none

/-- Run a sorting algorithm's sequence of element swaps through a `Swap`
operation that may fail: the whole run fails as soon as one swap does. -/
def runSwaps (swap : List BlockTx → Nat → Nat → Option (List BlockTx)) :
    List (Nat × Nat) → List BlockTx → Option (List BlockTx)
  | [], b => some b
  | (i, j) :: ops, b =>
      match swap b i j with
      | some b2 => runSwaps swap ops b2
      | none => none

-- ===========================================================================
-- Concrete sample values used by witnesses and counterexamples.
-- ===========================================================================

/-- A Signing Service for which every account id is well-formed, signing
always yields `(1, 2, 3)`, every signature is structurally valid, and the
recovered address is always `"a"`. -/
def svcAllOk : SigService :=
  { isAccountID := fun _ => true
    sign := fun _ => Except.ok (1, 2, 3)
    verifySignature := fun _ _ _ => true
    fromAddress := fun _ _ _ _ => "a" }

/-- A self-payment signed transaction (`from = to = "a"`) on chain 1. -/
def stxSelfDemo : SignedTx :=
  { Tx := { ChainID := 1, Nonce := 0, FromID := "a", ToID := "a",
            Value := 0, Tip := 0, Data := [] },
    V := 1, R := 1, S := 1 }

/-- A store holding exactly block 1 (an empty block numbered 1). -/
def demoStore1 : Store :=
  fun m => if 1 ≤ m ∧ m ≤ 1 then
    some (encBlockData { Header := { Number := m }, Trans := [] }) else none

-- ===========================================================================
-- Round-trip lemmas for the canonical serialization.
-- ===========================================================================

theorem takeWhile_append_all (p : Nat → Bool) (l₁ l₂ : List Nat) (h : ∀ x ∈ l₁, p x = true) :
    (l₁ ++ l₂).takeWhile p = l₁ ++ l₂.takeWhile p := by
  induction l₁ with
  | nil => simp
  | cons a l ih =>
      have ha : p a = true := h a (by simp)
      rw [List.cons_append, List.takeWhile_cons_of_pos ha,
        ih (fun x hx => h x (by simp [hx])), List.cons_append]

theorem dropWhile_append_all (p : Nat → Bool) (l₁ l₂ : List Nat) (h : ∀ x ∈ l₁, p x = true) :
    (l₁ ++ l₂).dropWhile p = l₂.dropWhile p := by
  induction l₁ with
  | nil => simp
  | cons a l ih =>
      have ha : p a = true := h a (by simp)
      rw [List.cons_append, List.dropWhile_cons_of_pos ha,
        ih (fun x hx => h x (by simp [hx]))]

theorem digitsVal_digitsRev : ∀ (fuel n : Nat), n ≤ fuel → digitsVal (digitsRev fuel n) = n := by
  intro fuel
  induction fuel with
  | zero => intro n h; interval_cases n; simp [digitsRev, digitsVal]
  | succ k ih =>
      intro n h
      by_cases hn : n = 0
      · simp [digitsRev, hn, digitsVal]
      · have hdiv : n / 10 ≤ k := by
          have h1 : n / 10 < n := Nat.div_lt_self (Nat.pos_of_ne_zero hn) (by omega)
          omega
        simp only [digitsRev, hn, if_false, digitsVal]
        rw [ih (n / 10) hdiv]
        omega

theorem digitsRev_lt_ten : ∀ (fuel n : Nat), ∀ d ∈ digitsRev fuel n, d < 10 := by
  intro fuel
  induction fuel with
  | zero => intro n d hd; simp [digitsRev] at hd
  | succ k ih =>
      intro n d hd
      by_cases hn : n = 0
      · simp [digitsRev, hn] at hd
      · simp only [digitsRev, hn, if_false, List.mem_cons] at hd
        rcases hd with h | h
        · subst h; exact Nat.mod_lt _ (by omega)
        · exact ih (n / 10) d h

theorem encNat_digits (n : Nat) : ∀ b ∈ encNat n, isDigitByte b = true := by
  intro b hb
  unfold encNat at hb
  by_cases hn : n = 0
  · simp [hn] at hb; subst hb; decide
  · simp only [hn, if_false, List.mem_reverse, List.mem_map] at hb
    rcases hb with ⟨d, hd, rfl⟩
    have hlt : d < 10 := digitsRev_lt_ten n n d hd
    simp only [isDigitByte, decide_eq_true_eq]
    omega

theorem encNat_ne_nil (n : Nat) : encNat n ≠ [] := by
  unfold encNat
  by_cases hn : n = 0
  · simp [hn]
  · simp only [hn, if_false]
    intro h
    rw [List.reverse_eq_nil_iff, List.map_eq_nil_iff] at h
    cases n with
    | zero => exact hn rfl
    | succ m => simp [digitsRev] at h

theorem encNat_val (n : Nat) :
    digitsVal (((encNat n).map (fun b => b - 48)).reverse) = n := by
  unfold encNat
  by_cases hn : n = 0
  · simp [hn, digitsVal]
  · simp only [hn, if_false]
    rw [List.map_reverse, List.reverse_reverse, List.map_map]
    have hid : ((fun b => b - 48) ∘ fun d => 48 + d) = id := by
      funext d
      simp [Nat.add_sub_cancel_left]
    rw [hid, List.map_id]
    exact digitsVal_digitsRev n n (le_refl n)

theorem takeWhile_eq_nil_of_noDigitHead (s : Bytes) (h : noDigitHead s = true) :
    s.takeWhile isDigitByte = [] := by
  cases s with
  | nil => rfl
  | cons a l =>
      simp only [noDigitHead, Bool.not_eq_true'] at h
      simp [List.takeWhile_cons, h]

theorem dropWhile_eq_self_of_noDigitHead (s : Bytes) (h : noDigitHead s = true) :
    s.dropWhile isDigitByte = s := by
  cases s with
  | nil => rfl
  | cons a l =>
      simp only [noDigitHead, Bool.not_eq_true'] at h
      simp [List.dropWhile_cons, h]

theorem parseNat_encNat (n : Nat) (rest : Bytes) (h : noDigitHead rest = true) :
    parseNat (encNat n ++ rest) = some (n, rest) := by
  have hne : (encNat n).isEmpty = false := by
    cases hE : encNat n with
    | nil => exact absurd hE (encNat_ne_nil n)
    | cons a l => rfl
  simp only [parseNat,
    takeWhile_append_all isDigitByte (encNat n) rest (encNat_digits n),
    takeWhile_eq_nil_of_noDigitHead rest h, List.append_nil,
    dropWhile_append_all isDigitByte (encNat n) rest (encNat_digits n),
    dropWhile_eq_self_of_noDigitHead rest h, hne, Bool.false_eq_true, if_false,
    encNat_val]

theorem parseTx_encTx (t : BlockTx) (rest : Bytes) :
    parseTx (encTx t ++ rest) = some (t, rest) := by
  have e1 : encTx t ++ rest
      = 91 :: (encNat t.Nonce ++ 44 :: (encNat t.Tip ++ 93 :: rest)) := by
    simp [encTx]
  rw [e1]
  simp only [parseTx]
  rw [parseNat_encNat t.Nonce (44 :: (encNat t.Tip ++ 93 :: rest)) rfl]
  simp only []
  rw [parseNat_encNat t.Tip (93 :: rest) rfl]
  simp

theorem parseTxsN_encTxs (ts : List BlockTx) (rest : Bytes) :
    parseTxsN ts.length (encTxs ts ++ rest) = some (ts, rest) := by
  induction ts generalizing rest with
  | nil => simp [encTxs, parseTxsN]
  | cons t ts ih =>
      simp only [List.length_cons, encTxs, List.append_assoc]
      simp only [parseTxsN]
      rw [parseTx_encTx t (encTxs ts ++ rest)]
      simp only []
      rw [ih rest]

theorem parseBlockData_encBlockData (b : BlockData) (rest : Bytes) :
    parseBlockData (encBlockData b ++ rest) = some (b, rest) := by
  have e1 : encBlockData b ++ rest
      = 123 :: (encNat b.Header.Number ++
          58 :: (encNat b.Trans.length ++ 58 :: (encTxs b.Trans ++ 125 :: rest))) := by
    simp [encBlockData]
  rw [e1]
  simp only [parseBlockData]
  rw [parseNat_encNat b.Header.Number
    (58 :: (encNat b.Trans.length ++ 58 :: (encTxs b.Trans ++ 125 :: rest))) rfl]
  simp only []
  rw [parseNat_encNat b.Trans.length (58 :: (encTxs b.Trans ++ 125 :: rest)) rfl]
  simp only []
  rw [parseTxsN_encTxs b.Trans (125 :: rest)]
  simp

theorem getBlock_record (st : Store) (num : Nat) (b : BlockData) (tail : Bytes)
    (h : st num = some (encBlockData b ++ tail)) :
    Disk.GetBlock st num = Except.ok b := by
  simp only [Disk.GetBlock, h, parseBlockData_encBlockData]

-- ===========================================================================
-- Claim C1 — error propagation of Disk.Write under serialization failure.
-- ===========================================================================

/-- Claim C1: "Every failure path of Disk.Write returns a distinguishable
error value: in particular, for every block whose serialization fails, Write
returns a SerializationFailure error (it never reports success when the
block was not persisted)."  The code does the opposite: its marshal-error
branch executes `return nil`, so `Write` reports success with the store
untouched — the block was not persisted yet no error is returned.  This
theorem evaluates the code on that failure path. -/
theorem write_swallows_serialization_failure
    (m : BlockData → Except String Bytes) (st : Store) (b : BlockData) (e : String)
    (h : m b = Except.error e) :
    Disk.Write m st b = Except.ok st := by
  simp only [Disk.Write, h]

theorem write_swallows_serialization_failure_witness :
    ((fun _ : BlockData => (Except.error "marshal failure" : Except String Bytes))
        { Header := { Number := 1 }, Trans := [] } = Except.error "marshal failure") ∧
    Disk.Write (fun _ => Except.error "marshal failure") (fun _ => none)
        { Header := { Number := 1 }, Trans := [] } = Except.ok (fun _ => none) :=
  ⟨rfl, write_swallows_serialization_failure _ _ _ "marshal failure" rfl⟩

-- ===========================================================================
-- Claim C2 — overwrite semantics of Disk.Write.
-- ===========================================================================

/-- Claim C2: "writing to a number that already has a record replaces it:
after Disk.Write(b), the record for b's header number holds exactly the new
serialized encoding of b (create-or-truncate then write), regardless of the
previous record's content or length."  False: the code opens with
`os.O_CREATE|os.O_RDWR` and no `os.O_TRUNC`, so when the previous record is
longer than the new encoding its trailing bytes survive.  Concretely: the
record for block 1 holds 10 bytes; writing block 1 (a 6-byte encoding)
leaves a record that is not the new encoding. -/
theorem write_no_truncate_stale_tail :
    ∃ st' : Store,
      Disk.Write marshalBlockData
        (fun n => if n = 1 then some [123, 49, 58, 48, 58, 125, 88, 88, 88, 88] else none)
        { Header := { Number := 1 }, Trans := [] } = Except.ok st' ∧
      st' 1 ≠ some (encBlockData { Header := { Number := 1 }, Trans := [] }) := by
  refine ⟨_, rfl, ?_⟩
  decide

-- ===========================================================================
-- Claim C3 — Write/GetBlock round-trip.
-- ===========================================================================

/-- Claim C3: "For any block with header number ≥ 1 and zero or more
transactions, Disk.Write(block) followed by Disk.GetBlock(block.header.number)
returns a BlockData equal to the original."  Proved for every prior store
state: even when a longer stale record leaves trailing bytes (claim C2), the
decoder — like Go's `json.Decoder.Decode` — reads the first complete value
and ignores the tail. -/
theorem write_then_getBlock_roundtrip (st : Store) (b : BlockData)
    (_h : 1 ≤ b.Header.Number) :
    ∃ st' : Store, Disk.Write marshalBlockData st b = Except.ok st' ∧
      Disk.GetBlock st' b.Header.Number = Except.ok b := by
  refine ⟨_, rfl, ?_⟩
  apply getBlock_record _ _ b
    (((st b.Header.Number).getD []).drop (encBlockData b).length)
  simp [storeWrite]

theorem write_then_getBlock_roundtrip_witness :
    1 ≤ ({ Header := { Number := 1 },
           Trans := [{ Nonce := 1, Tip := 5 }] } : BlockData).Header.Number ∧
    ∃ st' : Store,
      Disk.Write marshalBlockData (fun _ => none)
        { Header := { Number := 1 }, Trans := [{ Nonce := 1, Tip := 5 }] } = Except.ok st' ∧
      Disk.GetBlock st' 1 =
        Except.ok { Header := { Number := 1 }, Trans := [{ Nonce := 1, Tip := 5 }] } :=
  ⟨by decide, write_then_getBlock_roundtrip _ _ (by decide)⟩

-- ===========================================================================
-- Iterator step lemmas.
-- ===========================================================================

theorem next_of_done (di : diskIterator) (h : di.endOfChain = true) :
    di.Next = (Except.error DiskErr.endOfChain, di) := by
  simp [diskIterator.Next, h]

theorem next_eq_of_ok (di : diskIterator) (h : di.endOfChain = false) (bd : BlockData)
    (hG : Disk.GetBlock di.storage (di.currentBlockNumber + 1) = Except.ok bd) :
    di.Next = (Except.ok bd, { di with currentBlockNumber := di.currentBlockNumber + 1 }) := by
  simp [diskIterator.Next, h, hG]

theorem next_eq_of_notFound (di : diskIterator) (h : di.endOfChain = false)
    (hG : Disk.GetBlock di.storage (di.currentBlockNumber + 1) = Except.error DiskErr.notFound) :
    di.Next = (Except.error DiskErr.notFound,
      { di with currentBlockNumber := di.currentBlockNumber + 1, endOfChain := true }) := by
  simp [diskIterator.Next, h, hG]

theorem next_eq_of_error_ne (di : diskIterator) (h : di.endOfChain = false) (e : DiskErr)
    (hne : e ≠ DiskErr.notFound)
    (hG : Disk.GetBlock di.storage (di.currentBlockNumber + 1) = Except.error e) :
    di.Next = (Except.error e, { di with currentBlockNumber := di.currentBlockNumber + 1 }) := by
  cases e with
  | notFound => exact absurd rfl hne
  | deserializationFailure => simp [diskIterator.Next, h, hG]
  | ioFailure => simp [diskIterator.Next, h, hG]
  | endOfChain => simp [diskIterator.Next, h, hG]

-- ===========================================================================
-- Claim C4 — one-step behavior of diskIterator.Next.
-- ===========================================================================

/-- Claim C4: for the disk iterator and every store state: if `done` is
already latched, `Next` immediately fails with the end-of-chain error and
does not touch the store (the iterator is returned unchanged); otherwise
`Next` increments `currentBlockNumber` by one and returns the result of
`GetBlock(currentBlockNumber)`; a `NotFound` lookup failure latches
`done = true` and is returned from that same call, so the following call
reports end-of-chain; any other `GetBlock` error is returned without
latching `done`, as is a success. -/
theorem next_characterization (di : diskIterator) :
    (di.endOfChain = true → di.Next = (Except.error DiskErr.endOfChain, di)) ∧
    (di.endOfChain = false →
      di.Next.2.storage = di.storage ∧
      di.Next.2.currentBlockNumber = di.currentBlockNumber + 1 ∧
      di.Next.1 = Disk.GetBlock di.storage (di.currentBlockNumber + 1) ∧
      (Disk.GetBlock di.storage (di.currentBlockNumber + 1) = Except.error DiskErr.notFound →
        di.Next.2.endOfChain = true ∧
        di.Next.2.Next = (Except.error DiskErr.endOfChain, di.Next.2)) ∧
      (∀ e : DiskErr, e ≠ DiskErr.notFound →
        Disk.GetBlock di.storage (di.currentBlockNumber + 1) = Except.error e →
        di.Next.2.endOfChain = false) ∧
      (∀ bd : BlockData,
        Disk.GetBlock di.storage (di.currentBlockNumber + 1) = Except.ok bd →
        di.Next.2.endOfChain = false)) := by
  refine ⟨next_of_done di, fun h => ?_⟩
  cases hG : Disk.GetBlock di.storage (di.currentBlockNumber + 1) with
  | error e =>
      by_cases hne : e = DiskErr.notFound
      · subst hne
        rw [next_eq_of_notFound di h hG]
        refine ⟨rfl, rfl, rfl, fun _ => ⟨rfl, next_of_done _ rfl⟩, ?_, ?_⟩
        · intro e2 hne2 hG2
          injection hG2 with he
          exact absurd he.symm hne2
        · intro bd hG2
          exact Except.noConfusion hG2
      · rw [next_eq_of_error_ne di h e hne hG]
        refine ⟨rfl, rfl, rfl, ?_, fun e2 hne2 hG2 => h, fun bd hG2 => h⟩
        intro hn
        injection hn with he
        exact absurd he hne
  | ok bd =>
      rw [next_eq_of_ok di h bd hG]
      refine ⟨rfl, rfl, rfl, ?_, fun e2 hne2 hG2 => h, fun bd2 hG2 => h⟩
      intro hn
      exact Except.noConfusion hn

theorem next_characterization_witness :
    diskIterator.Next { storage := fun _ => none, currentBlockNumber := 0, endOfChain := true } =
      (Except.error DiskErr.endOfChain,
       { storage := fun _ => none, currentBlockNumber := 0, endOfChain := true }) :=
  (next_characterization _).1 rfl

-- ===========================================================================
-- Claim C5 — full iteration over a store holding blocks 1..N.
-- ===========================================================================

/-- Claim C5 (counterexample): the claim says the `Next` call after the
N-th "returns EndOfChain"; on the code that probing call returns the
NotFound error (latching `done`), and only the call after it returns
end-of-chain.  With `N = 0` (empty store), the first call returns
`notFound`, not `endOfChain`. -/
theorem forEach_first_probe_not_endOfChain :
    (Disk.ForEach (fun _ => none)).Next.1 = Except.error DiskErr.notFound ∧
    (Disk.ForEach (fun _ => none)).Next.1 ≠ Except.error DiskErr.endOfChain := by
  constructor
  · rfl
  · decide

theorem runNext_ok (st : Store) (f : Nat → BlockData) :
    ∀ (k c : Nat), (∀ i : Nat, c + 1 ≤ i → i ≤ c + k → st i = some (encBlockData (f i))) →
    runNext { storage := st, currentBlockNumber := c, endOfChain := false } k =
      ((List.range' (c + 1) k).map (fun i => Except.ok (f i)),
       { storage := st, currentBlockNumber := c + k, endOfChain := false }) := by
  intro k
  induction k with
  | zero => intro c hc; simp [runNext]
  | succ k ih =>
      intro c hc
      have hG : Disk.GetBlock st (c + 1) = Except.ok (f (c + 1)) := by
        apply getBlock_record st (c + 1) (f (c + 1)) []
        rw [List.append_nil]
        exact hc (c + 1) (by omega) (by omega)
      have hnext : diskIterator.Next
            { storage := st, currentBlockNumber := c, endOfChain := false } =
          (Except.ok (f (c + 1)),
           { storage := st, currentBlockNumber := c + 1, endOfChain := false }) :=
        next_eq_of_ok _ rfl _ hG
      simp only [runNext, hnext]
      rw [ih (c + 1) (fun i h1 h2 => hc i (by omega) (by omega))]
      rw [List.range'_succ, show c + (k + 1) = c + 1 + k from by omega]
      simp

/-- Claim C5 (amended): for every `N ≥ 0` and every store whose persisted
records are exactly blocks 1..N, a fresh iterator from `ForEach` returns
exactly the N blocks in ascending order of block number over the first N
`Next` calls; the call after the N-th returns the NotFound error and
latches `done`; the call after that one returns end-of-chain; `Done`
returns `false` through the N-th call and `true` from the (N+1)-th call
onwards. -/
theorem forEach_blocks_one_to_n (N : Nat) (f : Nat → BlockData) (st : Store)
    (hst : ∀ n : Nat, st n =
      if 1 ≤ n ∧ n ≤ N then some (encBlockData (f n)) else none)
    (hnum : ∀ n : Nat, (f n).Header.Number = n) :
    (runNext (Disk.ForEach st) N).1 = (List.range' 1 N).map (fun i => Except.ok (f i)) ∧
    (∀ i : Nat, 1 ≤ i → i ≤ N → (f i).Header.Number = i) ∧
    (∀ k : Nat, k ≤ N → diskIterator.Done (runNext (Disk.ForEach st) k).2 = false) ∧
    (runNext (Disk.ForEach st) N).2.Next.1 = Except.error DiskErr.notFound ∧
    diskIterator.Done ((runNext (Disk.ForEach st) N).2.Next.2) = true ∧
    ((runNext (Disk.ForEach st) N).2.Next.2).Next.1 = Except.error DiskErr.endOfChain := by
  have hrec : ∀ (k : Nat), k ≤ N → ∀ i : Nat, 0 + 1 ≤ i → i ≤ 0 + k →
      st i = some (encBlockData (f i)) := by
    intro k hk i h1 h2
    rw [hst i, if_pos ⟨by omega, by omega⟩]
  have hrunN := runNext_ok st f N 0 (hrec N (le_refl N))
  have hforEach : Disk.ForEach st =
      { storage := st, currentBlockNumber := 0, endOfChain := false } := rfl
  have hGnone : Disk.GetBlock st (N + 1) = Except.error DiskErr.notFound := by
    have : st (N + 1) = none := by rw [hst (N + 1), if_neg (by omega)]
    simp [Disk.GetBlock, this]
  have hzero : (0 : Nat) + N = N := by omega
  have hnext2 : diskIterator.Next
        { storage := st, currentBlockNumber := N, endOfChain := false } =
      (Except.error DiskErr.notFound,
       { storage := st, currentBlockNumber := N + 1, endOfChain := true }) :=
    next_eq_of_notFound _ rfl (by simpa using hGnone)
  refine ⟨?_, fun i h1 h2 => hnum i, ?_, ?_, ?_, ?_⟩
  · rw [hforEach, hrunN]
  · intro k hk
    rw [hforEach, runNext_ok st f k 0 (hrec k hk)]
    rfl
  · rw [hforEach, hrunN, hzero]
    rw [hnext2]
  · rw [hforEach, hrunN, hzero, hnext2]
    rfl
  · rw [hforEach, hrunN, hzero, hnext2]
    rw [next_of_done _ rfl]

theorem forEach_blocks_one_to_n_witness :
    (runNext (Disk.ForEach demoStore1) 1).1 =
      [Except.ok { Header := { Number := 1 }, Trans := [] }] ∧
    diskIterator.Done (runNext (Disk.ForEach demoStore1) 1).2 = false ∧
    (runNext (Disk.ForEach demoStore1) 1).2.Next.1 = Except.error DiskErr.notFound ∧
    diskIterator.Done ((runNext (Disk.ForEach demoStore1) 1).2.Next.2) = true ∧
    ((runNext (Disk.ForEach demoStore1) 1).2.Next.2).Next.1 =
      Except.error DiskErr.endOfChain := by
  have h := forEach_blocks_one_to_n 1
    (fun n => { Header := { Number := n }, Trans := [] }) demoStore1
    (fun n => rfl) (fun n => rfl)
  exact ⟨by rw [h.1]; rfl, h.2.2.1 1 (le_refl 1), h.2.2.2.1, h.2.2.2.2.1, h.2.2.2.2.2⟩

-- ===========================================================================
-- Claim C6 — the six validation checks, in order.
-- ===========================================================================

/-- Claim C6: for every SignedTx and expected chain id, `Validate` performs
exactly six short-circuiting checks in source order — chain-id match,
`from` well-formedness, `to` well-formedness, `from ≠ to`, structural
signature validity, recovered-signer binding — failing with the first
violated check and succeeding iff all six pass.  The equivalences below
characterize each of the seven outcomes exactly; purity and totality hold
because `Validate` is a function of its arguments. -/
theorem validate_six_checks (svc : SigService) (stx : SignedTx) (chainID : Nat) :
    (SignedTx.Validate svc stx chainID = Except.error ValidateErr.chainMismatch ↔
      stx.Tx.ChainID ≠ chainID) ∧
    (SignedTx.Validate svc stx chainID = Except.error ValidateErr.invalidFromAccount ↔
      stx.Tx.ChainID = chainID ∧ svc.isAccountID stx.Tx.FromID = false) ∧
    (SignedTx.Validate svc stx chainID = Except.error ValidateErr.invalidToAccount ↔
      stx.Tx.ChainID = chainID ∧ svc.isAccountID stx.Tx.FromID = true ∧
      svc.isAccountID stx.Tx.ToID = false) ∧
    (SignedTx.Validate svc stx chainID = Except.error ValidateErr.selfPayment ↔
      stx.Tx.ChainID = chainID ∧ svc.isAccountID stx.Tx.FromID = true ∧
      svc.isAccountID stx.Tx.ToID = true ∧ stx.Tx.FromID = stx.Tx.ToID) ∧
    (SignedTx.Validate svc stx chainID = Except.error ValidateErr.badSignature ↔
      stx.Tx.ChainID = chainID ∧ svc.isAccountID stx.Tx.FromID = true ∧
      svc.isAccountID stx.Tx.ToID = true ∧ stx.Tx.FromID ≠ stx.Tx.ToID ∧
      svc.verifySignature stx.V stx.R stx.S = false) ∧
    (SignedTx.Validate svc stx chainID = Except.error ValidateErr.signerMismatch ↔
      stx.Tx.ChainID = chainID ∧ svc.isAccountID stx.Tx.FromID = true ∧
      svc.isAccountID stx.Tx.ToID = true ∧ stx.Tx.FromID ≠ stx.Tx.ToID ∧
      svc.verifySignature stx.V stx.R stx.S = true ∧
      svc.fromAddress stx.Tx stx.V stx.R stx.S ≠ stx.Tx.FromID) ∧
    (SignedTx.Validate svc stx chainID = Except.ok () ↔
      stx.Tx.ChainID = chainID ∧ svc.isAccountID stx.Tx.FromID = true ∧
      svc.isAccountID stx.Tx.ToID = true ∧ stx.Tx.FromID ≠ stx.Tx.ToID ∧
      svc.verifySignature stx.V stx.R stx.S = true ∧
      svc.fromAddress stx.Tx stx.V stx.R stx.S = stx.Tx.FromID) := by
  unfold SignedTx.Validate
  split_ifs with h1 h2 h3 h4 h5 h6 <;> simp_all

theorem validate_six_checks_witness :
    SignedTx.Validate svcAllOk stxSelfDemo 1 = Except.error ValidateErr.selfPayment := by
  have h := (validate_six_checks svcAllOk stxSelfDemo 1).2.2.2.1
  exact h.mpr (by decide)

-- ===========================================================================
-- Claim C7 — self-payment rejection at validation time.
-- ===========================================================================

/-- Claim C7 (counterexample): the claim asserts that Validate fails with
SelfPayment for every signed transaction with `from == to` and well-formed
account ids, for *any* expected chain id; but when the expected chain id
differs from the transaction's, Validate fails with the chain-mismatch
error instead (check 1 precedes check 4).  `stxSelfDemo` has `from = to =
"a"` and chain id 1; under `svcAllOk` every account id is well-formed;
validating against chain id 2 yields the chain-mismatch error. -/
theorem selfPayment_chain_mismatch_cex :
    SignedTx.Validate svcAllOk stxSelfDemo 2 = Except.error ValidateErr.chainMismatch ∧
    (Except.error ValidateErr.chainMismatch : Except ValidateErr Unit) ≠
      Except.error ValidateErr.selfPayment :=
  ⟨rfl, by decide⟩

/-- Claim C7 (amended): for all signed transactions with `from == to` (both
account ids well-formed), validated against the transaction's own chain id,
`Validate` fails with SelfPayment — even though `NewTx` succeeds on the
same fields and `Sign` succeeds whenever the signing service does:
self-payment is rejected only at validation time, never at construction
time. -/
theorem selfPayment_validation_only (svc : SigService) (stx : SignedTx)
    (hfrom : svc.isAccountID stx.Tx.FromID = true)
    (hto : svc.isAccountID stx.Tx.ToID = true)
    (hself : stx.Tx.FromID = stx.Tx.ToID) :
    SignedTx.Validate svc stx stx.Tx.ChainID = Except.error ValidateErr.selfPayment ∧
    NewTx svc stx.Tx.ChainID stx.Tx.Nonce stx.Tx.FromID stx.Tx.ToID stx.Tx.Value
      stx.Tx.Tip stx.Tx.Data = Except.ok stx.Tx ∧
    (∀ v r s : Int, svc.sign stx.Tx = Except.ok (v, r, s) →
      Tx.Sign svc stx.Tx = Except.ok { Tx := stx.Tx, V := v, R := r, S := s }) := by
  refine ⟨?_, ?_, ?_⟩
  · unfold SignedTx.Validate
    rw [if_neg (by simp), if_neg (by simp [hfrom]), if_neg (by simp [hto]), if_pos hself]
  · unfold NewTx
    rw [if_neg (by simp [hfrom]), if_neg (by simp [hto])]
  · intro v r s hsign
    unfold Tx.Sign
    rw [hsign]

theorem selfPayment_validation_only_witness :
    svcAllOk.isAccountID stxSelfDemo.Tx.FromID = true ∧
    stxSelfDemo.Tx.FromID = stxSelfDemo.Tx.ToID ∧
    SignedTx.Validate svcAllOk stxSelfDemo 1 = Except.error ValidateErr.selfPayment ∧
    NewTx svcAllOk 1 0 "a" "a" 0 0 [] = Except.ok stxSelfDemo.Tx := by
  have h := selfPayment_validation_only svcAllOk stxSelfDemo rfl rfl rfl
  exact ⟨rfl, rfl, h.1, h.2.1⟩

-- ===========================================================================
-- Claim C8 — byTip.Swap is an unimplemented panicking stub.
-- ===========================================================================

/-- Claim C8: `byTip.Swap` is an unimplemented stub (`panic("implement
me")`) that fails whenever invoked, for every list and every pair of
indices; consequently any sorting algorithm that performs at least one swap
on a `byTip` list fails. -/
theorem byTip_swap_unimplemented :
    (∀ (b : List BlockTx) (i j : Nat), byTip.Swap b i j = none) ∧
    (∀ (ops : List (Nat × Nat)) (b : List BlockTx), ops ≠ [] →
      runSwaps byTip.Swap ops b = none) := by
  refine ⟨fun b i j => rfl, ?_⟩
  intro ops b hne
  cases ops with
  | nil => exact absurd rfl hne
  | cons op rest => cases op with | mk i j => rfl

theorem byTip_swap_unimplemented_witness :
    ([((0 : Nat), (1 : Nat))] ≠ ([] : List (Nat × Nat))) ∧
    runSwaps byTip.Swap [(0, 1)]
      [{ Nonce := 1, Tip := 5 }, { Nonce := 2, Tip := 3 }] = none :=
  ⟨by decide, byTip_swap_unimplemented.2 [(0, 1)] _ (by decide)⟩

-- ===========================================================================
-- Claim C9 — case-insensitive strategy lookup.
-- ===========================================================================

/-- Claim C9: `Retrieve` lowercases the requested name before the registry
lookup: every name whose lowercase form is `"tip"` yields the tip selection
function, and every name whose lowercase form is not a registered strategy
yields the unknown-strategy error (carrying the original name); the lookup
mutates nothing. -/
theorem retrieve_case_insensitive (s : String) :
    (asciiToLower s = "tip" → Retrieve s = Except.ok tipSelect) ∧
    (asciiToLower s ≠ "tip" → Retrieve s = Except.error (SelectorErr.unknownStrategy s)) := by
  constructor
  · intro h
    unfold Retrieve
    have hlk : lookupStrategy strategies (asciiToLower s) = some tipSelect := by
      simp only [strategies, lookupStrategy]
      have hcond : StrategyTip = asciiToLower s := h.symm
      rw [if_pos hcond]
    rw [hlk]
  · intro h
    unfold Retrieve
    have hlk : lookupStrategy strategies (asciiToLower s) = none := by
      simp only [strategies, lookupStrategy]
      have hcond : ¬ (StrategyTip = asciiToLower s) := fun hh => h hh.symm
      rw [if_neg hcond]
    rw [hlk]

theorem retrieve_case_insensitive_witness :
    asciiToLower "TIP" = "tip" ∧ Retrieve "TIP" = Except.ok tipSelect :=
  ⟨by decide, (retrieve_case_insensitive "TIP").1 (by decide)⟩

-- ===========================================================================
-- Claim C10 — tip_advanced is declared but never registered.
-- ===========================================================================

/-- Claim C10: the registry holds exactly the one entry `"tip"`; the
constant `StrategyTipAdvanced = "tip_advanced"` is declared but nothing is
registered under it, so `Retrieve` on `"tip_advanced"` — and on every name
whose lowercase form is `"tip_advanced"` — returns the unknown-strategy
error rather than a selection function. -/
theorem registry_single_entry_tip_advanced_unregistered :
    strategies = [(StrategyTip, tipSelect)] ∧
    StrategyTipAdvanced = "tip_advanced" ∧
    (∀ s : String, asciiToLower s = "tip_advanced" →
      Retrieve s = Except.error (SelectorErr.unknownStrategy s)) ∧
    Retrieve StrategyTipAdvanced =
      Except.error (SelectorErr.unknownStrategy StrategyTipAdvanced) := by
  have hall : ∀ s : String, asciiToLower s = "tip_advanced" →
      Retrieve s = Except.error (SelectorErr.unknownStrategy s) := by
    intro s hs
    unfold Retrieve
    have hlk : lookupStrategy strategies (asciiToLower s) = none := by
      simp only [strategies, lookupStrategy]
      have hcond : ¬ (StrategyTip = asciiToLower s) := by
        intro hh
        rw [hs] at hh
        exact absurd hh (by decide)
      rw [if_neg hcond]
    rw [hlk]
  exact ⟨rfl, rfl, hall, hall StrategyTipAdvanced (by decide)⟩

theorem registry_tip_advanced_witness :
    asciiToLower "TIP_ADVANCED" = "tip_advanced" ∧
    Retrieve "TIP_ADVANCED" =
      Except.error (SelectorErr.unknownStrategy "TIP_ADVANCED") :=
  ⟨by decide,
   registry_single_entry_tip_advanced_unregistered.2.2.1 "TIP_ADVANCED" (by decide)⟩
